import Mathlib

set_option maxRecDepth 8192
set_option maxHeartbeats 1000000

/-
Shallow embedding of the DivineNex server (src/server.js).

The server is an Express application backed by Firestore (post and guest
documents) and Google Drive (attachment blobs).  External calls are modelled
by explicit outcome parameters: each call that can throw gets a Bool flag or
an Option result, and each call to Date.now() consumes the next element of an
explicit clock list.  The call sequence of a handler is recorded as a trace of
events so that ordering properties (upload before metadata write, no store
call after a validation reject) are provable.
-/

namespace DivineNex

/-! JavaScript string primitives used by the handlers. -/

/-- Whitespace test used to model the regular expression backslash-s of
JavaScript (ASCII whitespace; the Unicode space classes do not occur in the
properties considered here). -/
def isWs (c : Char) : Bool :=
  c = ' ' || c = '\t' || c = '\n' || c = '\r' || c = '\x0b' || c = '\x0c'

/-- Model of the JavaScript call text.split(on a whitespace-run regular
expression): the string is cut at every maximal whitespace run, keeping the
empty boundary tokens that JavaScript produces for leading and trailing
whitespace.  The empty string yields one empty token. -/
def jsSplitWs : List Char → List (List Char)
  | [] => [[]]
  | c :: cs =>
      if isWs c then
        (match cs with
         | c2 :: _ => if isWs c2 then jsSplitWs cs else [] :: jsSplitWs cs
         | [] => [] :: jsSplitWs cs)
      else
        (match jsSplitWs cs with
         | t :: ts => (c :: t) :: ts
         | [] => [[c]])

/-- Length of the JavaScript whitespace split of a string; this is the word
count the upload handler compares against 500. -/
def jsSplitLen (s : String) : Nat := (jsSplitWs s.data).length

/-- Number of words of a text in the ordinary sense: the number of maximal
runs of non-whitespace characters.  This is the specification-side notion of
word count, independent of the boundary tokens of the JavaScript split. -/
def wordCount : List Char → Nat
  | [] => 0
  | c :: cs =>
      if isWs c then wordCount cs
      else
        match cs with
        | c2 :: _ => (if isWs c2 then 1 else 0) + wordCount cs
        | [] => 1

/-- Model of the JavaScript call replace(whitespace-run, underscore): every
maximal whitespace run becomes a single underscore. -/
def jsReplaceWs : List Char → List Char
  | [] => []
  | c :: cs =>
      if isWs c then
        (match cs with
         | c2 :: _ => if isWs c2 then jsReplaceWs cs else '_' :: jsReplaceWs cs
         | [] => [ '_' ])
      else c :: jsReplaceWs cs

/-- Model of the JavaScript call slice(0, n) on a string. -/
def jsSlice (n : Nat) (s : String) : String := String.mk (s.data.take n)

/-- JavaScript truthiness of an optional string field of a request body:
undefined and the empty string are falsy. -/
def truthy : Option String → Bool
  | none => false
  | some s => !s.data.isEmpty

/-! Data model: post payloads, guest documents, store state. -/

/-- The fileMeta record built by the upload handler after a successful Drive
upload: id, public url derived from the id, and stored name. -/
structure FileMeta where
  id : String
  url : String
  name : String
deriving DecidableEq

/-- The post payload written to the posts collection by the upload handler. -/
structure Payload where
  guestId : String
  title : String
  text : String
  file : Option FileMeta
  createdAt : Nat
  expiresAt : Nat
deriving DecidableEq

/-- A guest document.  Every field is optional because guest documents are
built up by merge writes; friends is the union-append list field. -/
structure GuestDoc where
  name : Option String
  email : Option String
  phone : Option String
  guestId : Option String
  updatedAt : Option Nat
  lastPostAt : Option Nat
  friends : List String
deriving DecidableEq

/-- The guest document with no fields set. -/
def emptyGuest : GuestDoc :=
  { name := none, email := none, phone := none, guestId := none,
    updatedAt := none, lastPostAt := none, friends := [] }

/-- State of the two Firestore collections used by the post lifecycle. -/
structure St where
  posts : List (String × Payload)
  guests : List (String × GuestDoc)
deriving DecidableEq

/-- Association-list lookup by string key, modelling a document read. -/
def alookup {α : Type} (k : String) : List (String × α) → Option α
  | [] => none
  | (k2, v) :: rest => if k2 = k then some v else alookup k rest

/-- Overwrite the lastPostAt field of a guest document. -/
def setLastPost (t : Nat) (g : GuestDoc) : GuestDoc := { g with lastPostAt := some t }

/-- Forget the lastPostAt field of a guest document (used to compare all the
other fields). -/
def clearLastPost (g : GuestDoc) : GuestDoc := { g with lastPostAt := none }

/-- The merge write set(lastPostAt, merge true) on the guests collection:
update the named document in place, or create it with only that field. -/
def upsertLastPost (gid : String) (t : Nat) : List (String × GuestDoc) → List (String × GuestDoc)
  | [] => [(gid, setLastPost t emptyGuest)]
  | (k, g) :: rest =>
      if k = gid then (k, setLastPost t g) :: rest
      else (k, g) :: upsertLastPost gid t rest

/-! The upload (publish) handler, src/server.js lines 100 to 142. -/

/-- The uploaded file of a multipart request as seen by the handler. -/
structure UploadedFile where
  originalname : String
  mimetype : String
deriving DecidableEq

/-- The request body of the upload handler.  Optional fields are None when
absent; JavaScript truthiness is applied where the source applies it. -/
structure UploadReq where
  guestId : Option String
  title : Option String
  text : Option String
  file : Option UploadedFile
deriving DecidableEq

/-- Response data of a successful Drive files.create call. -/
structure DriveResp where
  id : String
  name : String
deriving DecidableEq

/-- Outcomes of the external calls a single upload request can make, plus the
auto-generated document id and the successive Date.now() readings. -/
structure PubEnv where
  uploadResult : Option DriveResp
  permOk : Bool
  metaOk : Bool
  guestOk : Bool
  docId : String
  clock : List Nat

/-- Events recording each external store or blob call the handler makes, in
program order. -/
inductive Ev where
  | driveUpload (name mime : String)
  | drivePermission (fileId : String)
  | metaCreate (docId : String) (p : Payload)
  | guestMerge (guestId : String) (t : Nat)
deriving DecidableEq

/-- True exactly on the metadata-create event. -/
def Ev.isMeta : Ev → Bool
  | Ev.metaCreate _ _ => true
  | _ => false

/-- True exactly on the blob-upload event. -/
def Ev.isUpload : Ev → Bool
  | Ev.driveUpload _ _ => true
  | _ => false

/-- Result of the upload handler: a 400 validation reject, a 500 caught
error, or the success response carrying the document id and payload. -/
inductive PubResult where
  | badRequest (err : String)
  | serverError (err : String)
  | ok (id : String) (p : Payload)
deriving DecidableEq

/-- The fileMeta object built from a Drive response (source line 119): the
url is derived from the file id. -/
def mkFileMeta (resp : DriveResp) : FileMeta :=
  { id := resp.id, url := "https://drive.google.com/uc?id=" ++ resp.id, name := resp.name }

/-- The payload object literal of source lines 123 to 130.  createdAt and
expiresAt come from two separate Date.now() calls, modelled as the first two
elements of the remaining clock. -/
def mkPayload (ttl : Nat) (gid title textVal : String) (fm : Option FileMeta)
    (clock : List Nat) : Payload :=
  { guestId := gid, title := title, text := textVal, file := fm,
    createdAt := clock.headD 0,
    expiresAt := clock.tail.headD 0 + ttl * 3600 * 1000 }

/-- Source lines 122 to 137: write the payload document, then merge-write
lastPostAt on the guest document, then respond.  A throw of either write is
caught by the surrounding catch and answered with a 500 upload_failed. -/
def storePhase (ttl : Nat) (env : PubEnv) (gid title textVal : String)
    (fm : Option FileMeta) (clock : List Nat) (evs : List Ev) (st : St) :
    PubResult × List Ev × St :=
  let payload := mkPayload ttl gid title textVal fm clock
  let t3 := clock.tail.tail.headD 0
  if env.metaOk then
    if env.guestOk then
      (PubResult.ok env.docId payload,
       evs ++ [Ev.metaCreate env.docId payload, Ev.guestMerge gid t3],
       { posts := st.posts ++ [(env.docId, payload)],
         guests := upsertLastPost gid t3 st.guests })
    else
      (PubResult.serverError "upload_failed",
       evs ++ [Ev.metaCreate env.docId payload, Ev.guestMerge gid t3],
       { posts := st.posts ++ [(env.docId, payload)], guests := st.guests })
  else
    (PubResult.serverError "upload_failed",
     evs ++ [Ev.metaCreate env.docId payload], st)

/-- The Drive object name of source line 109: the first Date.now() reading,
an underscore, the original file name; whitespace runs replaced by
underscores; truncated to 200 characters. -/
def uploadName (env : PubEnv) (f : UploadedFile) : String :=
  jsSlice 200 (String.mk (jsReplaceWs (toString (env.clock.headD 0) ++ "_" ++ f.originalname).data))

/-- The upload handler of source lines 100 to 142.  Validation of guestId and
title, the 500-word text check, the optional Drive upload with its best-effort
public-permission grant, then the store phase. -/
def publish (ttl : Nat) (env : PubEnv) (req : UploadReq) (st : St) :
    PubResult × List Ev × St :=
  if !truthy req.guestId || !truthy req.title then
    (PubResult.badRequest "guestId & title required", [], st)
  else if truthy req.text && decide (500 < jsSplitLen (req.text.getD "")) then
    (PubResult.badRequest "text_too_long", [], st)
  else
    match req.file with
    | none =>
        storePhase ttl env (req.guestId.getD "") (req.title.getD "") (req.text.getD "")
          none env.clock [] st
    | some f =>
        match env.uploadResult with
        | none =>
            (PubResult.serverError "upload_failed", [Ev.driveUpload (uploadName env f) f.mimetype], st)
        | some resp =>
            storePhase ttl env (req.guestId.getD "") (req.title.getD "") (req.text.getD "")
              (some (mkFileMeta resp)) env.clock.tail
              [Ev.driveUpload (uploadName env f) f.mimetype, Ev.drivePermission resp.id] st

/-! The listing handler, src/server.js lines 145 to 155. -/

/-- Ordering used by the posts query: createdAt descending. -/
def postGE (a b : String × Payload) : Prop := b.2.createdAt ≤ a.2.createdAt

instance : DecidableRel postGE := fun a b => Nat.decLe b.2.createdAt a.2.createdAt

instance : IsTotal (String × Payload) postGE :=
  ⟨fun a b => Nat.le_total b.2.createdAt a.2.createdAt⟩

instance : IsTrans (String × Payload) postGE :=
  ⟨fun _ _ _ hab hbc => Nat.le_trans hbc hab⟩

/-- The Firestore query orderBy(createdAt, desc).limit(100) of source
line 147, over the current posts collection. -/
def listRecentPosts (st : St) : List (String × Payload) :=
  (List.insertionSort postGE st.posts).take 100

/-- Result of the listing handler: the post list, or the 500 response of the
catch block. -/
inductive ListResult where
  | ok (posts : List (String × Payload))
  | err (e : String)
deriving DecidableEq

/-- The listing handler: on a successful store read it answers with the query
result; if the read throws, the catch block answers 500 read_failed
(source lines 151 to 154).  It performs no write, so the state is returned
unchanged. -/
def listPostsHandler (readOk : Bool) (st : St) : ListResult × St :=
  if readOk then (ListResult.ok (listRecentPosts st), st)
  else (ListResult.err "read_failed", st)

/-! The cleanup job, src/server.js lines 217 to 234. -/

/-- Outcomes of the external calls of one sweep run: whether the expiry query
succeeds, the query timestamp, and the per-id outcomes of the Drive and
Firestore deletes. -/
structure SweepEnv where
  queryOk : Bool
  now : Nat
  driveDelOk : String → Bool
  metaDelOk : String → Bool

/-- Delete calls issued by one sweep run, in program order. -/
inductive DEv where
  | driveDelete (fileId : String)
  | metaDelete (docId : String)
deriving DecidableEq

/-- The Drive delete issued for one expired post: only when the file field
and its id are truthy (source line 224). -/
def fileDeleteEvs (p : Payload) : List DEv :=
  match p.file with
  | some fm => if fm.id = "" then [] else [DEv.driveDelete fm.id]
  | none => []

/-- The delete calls pushed for the documents returned by the expiry query,
in snapshot order: per post the optional Drive delete then the metadata
delete. -/
def sweepEvents (now : Nat) : List (String × Payload) → List DEv
  | [] => []
  | (id, p) :: rest =>
      if p.expiresAt ≤ now then fileDeleteEvs p ++ DEv.metaDelete id :: sweepEvents now rest
      else sweepEvents now rest

/-- The posts collection after the sweep: a post disappears exactly when it
was selected by the expiry query and its metadata delete succeeded; every
delete failure is swallowed by a catch. -/
def sweepRemain (now : Nat) (delOk : String → Bool) :
    List (String × Payload) → List (String × Payload)
  | [] => []
  | (id, p) :: rest =>
      if p.expiresAt ≤ now ∧ delOk id = true then sweepRemain now delOk rest
      else (id, p) :: sweepRemain now delOk rest

/-- One run of cleanupExpiredPostsOnce.  If the expiry query throws, the
outer catch swallows the error and nothing is deleted.  Guest documents are
never touched. -/
def cleanup (env : SweepEnv) (st : St) : List DEv × St :=
  if env.queryOk then
    (sweepEvents env.now st.posts,
     { posts := sweepRemain env.now env.metaDelOk st.posts, guests := st.guests })
  else ([], st)

/-! The route table, in registration order over the whole file. -/

/-- Tags naming each registered handler, in source order; the suffix 1 marks
the handlers of the first revision (lines 83 to 251), the suffix 2 and
uploadRev2 the handlers of the second revision (lines 308 to 371).
uploadDup is the second POST /upload registration of the first revision
(lines 171 to 192). -/
inductive HKind where
  | health | guest1 | uploadMain | posts1 | friend | uploadDup | people | news1
  | root2 | guest2 | uploadRev2 | posts2 | news2
deriving DecidableEq

/-- One route registration: HTTP method, exact path, handler tag. -/
structure Route where
  method : String
  path : String
  tag : HKind
deriving DecidableEq

/-- All route registrations of src/server.js in file order. -/
def routes : List Route :=
  [⟨"GET", "/health", HKind.health⟩,
   ⟨"POST", "/guest", HKind.guest1⟩,
   ⟨"POST", "/upload", HKind.uploadMain⟩,
   ⟨"GET", "/posts", HKind.posts1⟩,
   ⟨"POST", "/friend", HKind.friend⟩,
   ⟨"POST", "/upload", HKind.uploadDup⟩,
   ⟨"GET", "/people", HKind.people⟩,
   ⟨"GET", "/news", HKind.news1⟩,
   ⟨"GET", "/", HKind.root2⟩,
   ⟨"POST", "/guest", HKind.guest2⟩,
   ⟨"POST", "/upload", HKind.uploadRev2⟩,
   ⟨"GET", "/posts", HKind.posts2⟩,
   ⟨"GET", "/news", HKind.news2⟩]

/-- Express dispatch: a request is handled by the first registered route
whose method and path match.  Every handler here finalises its response
(each code path of each handler sends exactly one response and none invokes
the next route), so first-match is the observable routing semantics. -/
def dispatch (m p : String) (rs : List Route) : Option HKind :=
  (rs.find? (fun r => decide (r.method = m ∧ r.path = p))).map Route.tag

/-- The registrations before the duplicate POST /upload handler. -/
def routesPre : List Route :=
  [⟨"GET", "/health", HKind.health⟩,
   ⟨"POST", "/guest", HKind.guest1⟩,
   ⟨"POST", "/upload", HKind.uploadMain⟩,
   ⟨"GET", "/posts", HKind.posts1⟩,
   ⟨"POST", "/friend", HKind.friend⟩]

/-- The duplicate POST /upload registration (source lines 171 to 192). -/
def dupRoute : Route := ⟨"POST", "/upload", HKind.uploadDup⟩

/-- The registrations after the duplicate POST /upload handler. -/
def routesPost : List Route :=
  [⟨"GET", "/people", HKind.people⟩,
   ⟨"GET", "/news", HKind.news1⟩,
   ⟨"GET", "/", HKind.root2⟩,
   ⟨"POST", "/guest", HKind.guest2⟩,
   ⟨"POST", "/upload", HKind.uploadRev2⟩,
   ⟨"GET", "/posts", HKind.posts2⟩,
   ⟨"GET", "/news", HKind.news2⟩]

/-- The route table with the duplicate POST /upload handler removed. -/
def routesNoDup : List Route := routes.filter (fun r => decide (r.tag ≠ HKind.uploadDup))

/-! The Firestore document written for a post, as a key-value object.  This
captures which keys are present and with which value shapes (in particular a
null value versus an absent key). -/

/-- A loosely typed Firestore value. -/
inductive JsVal where
  | null
  | str (s : String)
  | num (n : Nat)
  | obj (fields : List (String × JsVal))

/-- The file field value: null when no file was uploaded, otherwise the
fileMeta object. -/
def fileMetaToJs : Option FileMeta → JsVal
  | none => JsVal.null
  | some fm =>
      JsVal.obj [("id", JsVal.str fm.id), ("url", JsVal.str fm.url), ("name", JsVal.str fm.name)]

/-- The document written by docRef.set(payload) (source lines 123 to 131):
every key of the object literal is always present. -/
def toDoc (p : Payload) : List (String × JsVal) :=
  [("guestId", JsVal.str p.guestId), ("title", JsVal.str p.title),
   ("text", JsVal.str p.text), ("file", fileMetaToJs p.file),
   ("createdAt", JsVal.num p.createdAt), ("expiresAt", JsVal.num p.expiresAt)]

/-! Lemmas about the JavaScript split and the word count. -/

/-- One for a string starting with whitespace, zero otherwise. -/
def bLead (cs : List Char) : Nat :=
  match cs with
  | [] => 0
  | c :: _ => if isWs c then 1 else 0

/-- Last character of a character list, when there is one. -/
def lastChar : List Char → Option Char
  | [] => none
  | [c] => some c
  | _ :: c :: cs => lastChar (c :: cs)

/-- One for a string ending with whitespace, zero otherwise. -/
def bTrail (cs : List Char) : Nat :=
  match lastChar cs with
  | some c => if isWs c then 1 else 0
  | none => 0

/-! A concrete text of n single-character words separated by single spaces,
recursively generated so that its word counts are provable by induction. -/

/-- n words, each the character a, separated by single spaces. -/
def wordsChars : Nat → List Char
  | 0 => []
  | n + 1 =>
      match n with
      | 0 => [ 'a' ]
      | m + 1 => 'a' :: ' ' :: wordsChars (m + 1)

/-! Concrete texts at the 500-word boundary. -/

/-- 500 single-character words preceded by one space: 500 words in the
ordinary sense, 501 tokens for the JavaScript split. -/
def overlimitText : String := String.mk (' ' :: wordsChars 500)

/-- 500 single-character words with no boundary whitespace. -/
def boundaryText : String := String.mk (wordsChars 500)

/-- 501 single-character words with no boundary whitespace. -/
def overBoundaryText : String := String.mk (wordsChars 501)

/-! Ordering of events within one request. -/

/-- Every metadata-create event of a trace is strictly preceded by a
blob-upload event. -/
def uploadBeforeMeta (tr : List Ev) : Prop :=
  ∀ i : Fin tr.length, (tr.get i).isMeta = true →
    ∃ j : Fin tr.length, (j : Nat) < (i : Nat) ∧ (tr.get j).isUpload = true

/-! Concrete fixtures used to instantiate the theorems. -/

/-- The empty store. -/
def stEmpty : St := { posts := [], guests := [] }

/-- An uploaded picture. -/
def fC1 : UploadedFile := { originalname := "pic.png", mimetype := "image/png" }

/-- A valid multipart request with an attachment. -/
def reqC1 : UploadReq :=
  { guestId := some "g1", title := some "Hello", text := some "hi", file := some fC1 }

/-- An environment in which the Drive upload fails. -/
def envC1 : PubEnv :=
  { uploadResult := none, permOk := true, metaOk := true, guestOk := true,
    docId := "p1", clock := [3, 4, 5, 6] }

/-- An environment in which every call succeeds and the clock advances by one
millisecond between the createdAt and the expiresAt readings. -/
def envC2 : PubEnv :=
  { uploadResult := none, permOk := true, metaOk := true, guestOk := true,
    docId := "p2", clock := [1000, 1001, 1002] }

/-- A valid request with no text and no attachment. -/
def reqC2 : UploadReq :=
  { guestId := some "g1", title := some "T", text := none, file := none }

/-- The payload the handler stores for reqC2 under envC2. -/
def payloadC2 : Payload :=
  { guestId := "g1", title := "T", text := "", file := none,
    createdAt := 1000, expiresAt := 1001 + 24 * 3600 * 1000 }

/-- A fully populated guest document. -/
def g0 : GuestDoc :=
  { name := some "Asha", email := some "a@b.com", phone := some "1", guestId := some "g1",
    updatedAt := some 50, lastPostAt := none, friends := ["g2"] }

/-- A store holding one guest document. -/
def stC3 : St := { posts := [], guests := [("g1", g0)] }

/-- An all-success environment whose fourth now() reading is 9. -/
def envC3 : PubEnv :=
  { uploadResult := none, permOk := true, metaOk := true, guestOk := true,
    docId := "p3", clock := [7, 7, 9] }

/-- A stored post without attachment. -/
def pC4 : Payload :=
  { guestId := "g1", title := "T", text := "x", file := none, createdAt := 10, expiresAt := 20 }

/-- A store holding one post. -/
def stC4 : St := { posts := [("a1", pC4)], guests := [] }

/-- A stored attachment record. -/
def fmW : FileMeta :=
  { id := "b1", url := "https://drive.google.com/uc?id=b1", name := "n" }

/-- An expired post carrying an attachment. -/
def pW : Payload :=
  { guestId := "g1", title := "T", text := "", file := some fmW,
    createdAt := 0, expiresAt := 10 }

/-- A store holding one expired post with an attachment. -/
def stW : St := { posts := [("p1", pW)], guests := [] }

/-- A sweep environment with a successful query at time 50 in which every
delete fails. -/
def envW : SweepEnv :=
  { queryOk := true, now := 50, driveDelOk := fun _ => false, metaDelOk := fun _ => false }

/-- A valid request whose text is 500 words preceded by a space. -/
def reqC6 : UploadReq :=
  { guestId := some "g1", title := some "T", text := some overlimitText, file := none }

/-- A valid request whose text is exactly 500 words with no boundary
whitespace. -/
def reqC6ok : UploadReq :=
  { guestId := some "g1", title := some "T", text := some boundaryText, file := none }

/-- A Drive response for the permission-failure scenario. -/
def respC7 : DriveResp := { id := "b7", name := "f.png" }

/-- An environment in which the upload succeeds but the public-permission
grant fails; both store writes succeed. -/
def envC7 : PubEnv :=
  { uploadResult := some respC7, permOk := false, metaOk := true, guestOk := true,
    docId := "p7", clock := [2, 3, 3, 4] }

/-- A valid request with an attachment and no text. -/
def reqC7 : UploadReq :=
  { guestId := some "g1", title := some "T", text := none, file := some fC1 }

theorem jsSplitWs_cons_ws_nil (c : Char) (h : isWs c = true) :
    jsSplitWs [c] = [[], []] := by
  simp [jsSplitWs, h]

theorem jsSplitWs_cons_ws_ws (c c2 : Char) (cs : List Char)
    (h : isWs c = true) (h2 : isWs c2 = true) :
    jsSplitWs (c :: c2 :: cs) = jsSplitWs (c2 :: cs) := by
  simp [jsSplitWs, h, h2]

theorem jsSplitWs_cons_ws_nonws (c c2 : Char) (cs : List Char)
    (h : isWs c = true) (h2 : isWs c2 = false) :
    jsSplitWs (c :: c2 :: cs) = [] :: jsSplitWs (c2 :: cs) := by
  simp [jsSplitWs, h, h2]

theorem jsSplitWs_cons_nonws (c : Char) (cs : List Char) (t : List Char) (ts : List (List Char))
    (h : isWs c = false) (hts : jsSplitWs cs = t :: ts) :
    jsSplitWs (c :: cs) = (c :: t) :: ts := by
  cases cs with
  | nil => simp [jsSplitWs] at hts; simp [jsSplitWs, h, hts]
  | cons c2 cs2 =>
      simp only [jsSplitWs, h, Bool.false_eq_true, if_false]
      simp only [jsSplitWs] at hts
      rw [hts]

theorem wordCount_cons_ws (c : Char) (cs : List Char) (h : isWs c = true) :
    wordCount (c :: cs) = wordCount cs := by
  simp [wordCount, h]

theorem wordCount_singleton (c : Char) (h : isWs c = false) :
    wordCount [c] = 1 := by
  simp [wordCount, h]

theorem wordCount_cons_cons (c c2 : Char) (cs : List Char) (h : isWs c = false) :
    wordCount (c :: c2 :: cs) = (if isWs c2 = true then 1 else 0) + wordCount (c2 :: cs) := by
  simp [wordCount, h]

/-- The JavaScript split never produces an empty token list. -/
theorem jsSplitWs_ne_nil : ∀ l : List Char, jsSplitWs l ≠ []
  | [] => by simp [jsSplitWs]
  | c :: cs => by
      by_cases h : isWs c
      · cases cs with
        | nil => rw [jsSplitWs_cons_ws_nil c h]; simp
        | cons c2 cs2 =>
            by_cases h2 : isWs c2
            · rw [jsSplitWs_cons_ws_ws c c2 cs2 h (by simpa using h2)]
              exact jsSplitWs_ne_nil (c2 :: cs2)
            · rw [jsSplitWs_cons_ws_nonws c c2 cs2 h (by simpa using h2)]
              simp
      · obtain ⟨t, ts, hts⟩ := List.exists_cons_of_ne_nil (jsSplitWs_ne_nil cs)
        rw [jsSplitWs_cons_nonws c cs t ts (by simpa using h) hts]
        simp

/-- Token count of the JavaScript split of a nonempty string: the number of
words plus one boundary token per side that starts or ends in whitespace. -/
theorem jsSplitWs_length_eq :
    ∀ (cs : List Char) (c : Char),
      (jsSplitWs (c :: cs)).length = wordCount (c :: cs) + bLead (c :: cs) + bTrail (c :: cs)
  | [], c => by
      by_cases h : isWs c
      · rw [jsSplitWs_cons_ws_nil c h, wordCount_cons_ws c [] h]
        simp [wordCount, bLead, bTrail, lastChar, h]
      · rw [jsSplitWs_cons_nonws c [] [] [] (by simpa using h) rfl,
          wordCount_singleton c (by simpa using h)]
        simp [bLead, bTrail, lastChar, h]
  | c2 :: cs2, c => by
      have ih := jsSplitWs_length_eq cs2 c2
      have hb : bTrail (c :: c2 :: cs2) = bTrail (c2 :: cs2) := rfl
      by_cases h : isWs c
      · have hbl : bLead (c :: c2 :: cs2) = 1 := by simp [bLead, h]
        have hw : wordCount (c :: c2 :: cs2) = wordCount (c2 :: cs2) :=
          wordCount_cons_ws c (c2 :: cs2) h
        by_cases h2 : isWs c2
        · rw [jsSplitWs_cons_ws_ws c c2 cs2 h (by simpa using h2), hb, hw, hbl]
          have hbl2 : bLead (c2 :: cs2) = 1 := by simp [bLead, h2]
          rw [hbl2] at ih
          omega
        · rw [jsSplitWs_cons_ws_nonws c c2 cs2 h (by simpa using h2), hb, hw, hbl]
          have hbl2 : bLead (c2 :: cs2) = 0 := by simp [bLead, h2]
          rw [hbl2] at ih
          simp only [List.length_cons]
          omega
      · obtain ⟨t, ts, hts⟩ := List.exists_cons_of_ne_nil (jsSplitWs_ne_nil (c2 :: cs2))
        rw [jsSplitWs_cons_nonws c (c2 :: cs2) t ts (by simpa using h) hts, hb,
          wordCount_cons_cons c c2 cs2 (by simpa using h)]
        have hbl : bLead (c :: c2 :: cs2) = 0 := by simp [bLead, h]
        rw [hbl]
        rw [hts] at ih
        have hbl2 : bLead (c2 :: cs2) = if isWs c2 = true then 1 else 0 := by simp [bLead]
        rw [hbl2] at ih
        simp only [List.length_cons] at ih ⊢
        omega

/-- The word count never exceeds the JavaScript split token count. -/
theorem wordCount_le_splitLen (cs : List Char) : wordCount cs ≤ (jsSplitWs cs).length := by
  cases cs with
  | nil => simp [wordCount, jsSplitWs]
  | cons c cs => rw [jsSplitWs_length_eq]; omega

/-- For a string neither starting nor ending in whitespace, the JavaScript
split token count is exactly the word count. -/
theorem splitLen_eq_wordCount (c : Char) (cs : List Char)
    (h1 : bLead (c :: cs) = 0) (h2 : bTrail (c :: cs) = 0) :
    (jsSplitWs (c :: cs)).length = wordCount (c :: cs) := by
  rw [jsSplitWs_length_eq, h1, h2]
  omega

theorem wordsChars_cons (n : Nat) : ∃ t, wordsChars (n + 1) = 'a' :: t := by
  cases n <;> exact ⟨_, rfl⟩

theorem wordCount_wordsChars : ∀ n, wordCount (wordsChars (n + 1)) = n + 1
  | 0 => by decide
  | m + 1 => by
      have ih := wordCount_wordsChars m
      show wordCount ('a' :: ' ' :: wordsChars (m + 1)) = m + 2
      obtain ⟨t, ht⟩ := wordsChars_cons m
      rw [ht] at ih ⊢
      rw [wordCount_cons_cons 'a' ' ' ('a' :: t) rfl, wordCount_cons_ws ' ' ('a' :: t) rfl]
      rw [show (if isWs ' ' = true then (1 : Nat) else 0) = 1 from rfl]
      omega

theorem splitLen_wordsChars : ∀ n, (jsSplitWs (wordsChars (n + 1))).length = n + 1
  | 0 => by decide
  | m + 1 => by
      have ih := splitLen_wordsChars m
      show (jsSplitWs ('a' :: ' ' :: wordsChars (m + 1))).length = m + 2
      obtain ⟨t, ht⟩ := wordsChars_cons m
      rw [ht] at ih ⊢
      have h1 : jsSplitWs (' ' :: 'a' :: t) = [] :: jsSplitWs ('a' :: t) :=
        jsSplitWs_cons_ws_nonws ' ' 'a' t rfl rfl
      rw [jsSplitWs_cons_nonws 'a' (' ' :: 'a' :: t) [] (jsSplitWs ('a' :: t)) rfl h1]
      simp only [List.length_cons] at ih ⊢
      omega

theorem lastChar_wordsChars : ∀ n, lastChar (wordsChars (n + 1)) = some 'a'
  | 0 => rfl
  | m + 1 => by
      have ih := lastChar_wordsChars m
      show lastChar ('a' :: ' ' :: wordsChars (m + 1)) = some 'a'
      obtain ⟨t, ht⟩ := wordsChars_cons m
      rw [ht] at ih ⊢
      rw [show lastChar ('a' :: ' ' :: 'a' :: t) = lastChar ('a' :: t) from rfl]
      exact ih

theorem wordCount_overlimitText : wordCount overlimitText.data = 500 := by
  show wordCount (' ' :: wordsChars 500) = 500
  rw [wordCount_cons_ws ' ' (wordsChars 500) rfl]
  exact wordCount_wordsChars 499

theorem splitLen_overlimitText : jsSplitLen overlimitText = 501 := by
  show (jsSplitWs (' ' :: wordsChars 500)).length = 501
  obtain ⟨t, ht⟩ := wordsChars_cons 499
  have hsp : (jsSplitWs (wordsChars 500)).length = 500 := splitLen_wordsChars 499
  rw [ht] at hsp ⊢
  rw [jsSplitWs_cons_ws_nonws ' ' 'a' t rfl rfl]
  simp only [List.length_cons]
  omega

theorem wordCount_boundaryText : wordCount boundaryText.data = 500 :=
  wordCount_wordsChars 499

theorem wordCount_overBoundaryText : wordCount overBoundaryText.data = 501 :=
  wordCount_wordsChars 500

theorem bLead_boundaryText : bLead boundaryText.data = 0 := by
  obtain ⟨t, ht⟩ := wordsChars_cons 499
  show bLead (wordsChars 500) = 0
  rw [ht]
  simp only [bLead]
  rfl

theorem bTrail_boundaryText : bTrail boundaryText.data = 0 := by
  have h : lastChar (wordsChars 500) = some 'a' := lastChar_wordsChars 499
  show bTrail (wordsChars 500) = 0
  unfold bTrail
  rw [h]
  rfl

/-! Reduction lemmas for the publish handler. -/

theorem truthy_of_ne_nil (s : String) (hne : s.data ≠ []) : truthy (some s) = true := by
  show (!s.data.isEmpty) = true
  cases hd : s.data with
  | nil => exact absurd hd hne
  | cons a l => rfl

/-- With truthy guestId and title, a text whose JavaScript split exceeds 500
tokens makes the handler answer 400 text_too_long with no store or blob call
(empty trace) and an unchanged state. -/
theorem publish_reject_text (ttl : Nat) (env : PubEnv) (req : UploadReq) (st : St) (s : String)
    (hg : truthy req.guestId = true) (ht : truthy req.title = true)
    (hs : req.text = some s) (hne : s.data ≠ []) (hlen : 500 < jsSplitLen s) :
    publish ttl env req st = (PubResult.badRequest "text_too_long", [], st) := by
  have h1 : (!truthy req.guestId || !truthy req.title) = false := by rw [hg, ht]; rfl
  have h2 : (truthy req.text && decide (500 < jsSplitLen (req.text.getD ""))) = true := by
    rw [hs]
    show (truthy (some s) && decide (500 < jsSplitLen s)) = true
    rw [truthy_of_ne_nil s hne, decide_eq_true hlen]
    rfl
  simp [publish, h1, h2]

theorem storePhase_not_badRequest (ttl : Nat) (env : PubEnv) (gid title textVal : String)
    (fm : Option FileMeta) (clock : List Nat) (evs : List Ev) (st : St) (e : String) :
    (storePhase ttl env gid title textVal fm clock evs st).1 ≠ PubResult.badRequest e := by
  by_cases hm : env.metaOk <;> by_cases hgk : env.guestOk <;>
    simp [storePhase, hm, hgk]

/-- With truthy guestId and title and a text within the split limit, the
handler never answers 400: the request is accepted by validation. -/
theorem publish_not_badRequest (ttl : Nat) (env : PubEnv) (req : UploadReq) (st : St)
    (hg : truthy req.guestId = true) (ht : truthy req.title = true)
    (htext : (truthy req.text && decide (500 < jsSplitLen (req.text.getD ""))) = false) :
    ∀ e, (publish ttl env req st).1 ≠ PubResult.badRequest e := by
  intro e
  have h1 : (!truthy req.guestId || !truthy req.title) = false := by rw [hg, ht]; rfl
  simp only [publish, h1, htext, Bool.false_eq_true, if_false]
  cases hf : req.file with
  | none => exact storePhase_not_badRequest ttl env _ _ _ none env.clock [] st e
  | some f =>
      cases hu : env.uploadResult with
      | none => simp
      | some resp => exact storePhase_not_badRequest ttl env _ _ _ _ env.clock.tail _ st e

theorem publish_valid_noFile (ttl : Nat) (env : PubEnv) (req : UploadReq) (st : St)
    (hg : truthy req.guestId = true) (ht : truthy req.title = true)
    (htext : (truthy req.text && decide (500 < jsSplitLen (req.text.getD ""))) = false)
    (hf : req.file = none) :
    publish ttl env req st =
      storePhase ttl env (req.guestId.getD "") (req.title.getD "") (req.text.getD "")
        none env.clock [] st := by
  have h1 : (!truthy req.guestId || !truthy req.title) = false := by rw [hg, ht]; rfl
  simp [publish, h1, htext, hf]

theorem publish_valid_file_fail (ttl : Nat) (env : PubEnv) (req : UploadReq) (st : St)
    (f : UploadedFile)
    (hg : truthy req.guestId = true) (ht : truthy req.title = true)
    (htext : (truthy req.text && decide (500 < jsSplitLen (req.text.getD ""))) = false)
    (hf : req.file = some f) (hu : env.uploadResult = none) :
    publish ttl env req st =
      (PubResult.serverError "upload_failed", [Ev.driveUpload (uploadName env f) f.mimetype], st) := by
  have h1 : (!truthy req.guestId || !truthy req.title) = false := by rw [hg, ht]; rfl
  simp [publish, h1, htext, hf, hu]

theorem publish_valid_file_ok (ttl : Nat) (env : PubEnv) (req : UploadReq) (st : St)
    (f : UploadedFile) (resp : DriveResp)
    (hg : truthy req.guestId = true) (ht : truthy req.title = true)
    (htext : (truthy req.text && decide (500 < jsSplitLen (req.text.getD ""))) = false)
    (hf : req.file = some f) (hu : env.uploadResult = some resp) :
    publish ttl env req st =
      storePhase ttl env (req.guestId.getD "") (req.title.getD "") (req.text.getD "")
        (some (mkFileMeta resp)) env.clock.tail
        [Ev.driveUpload (uploadName env f) f.mimetype, Ev.drivePermission resp.id] st := by
  have h1 : (!truthy req.guestId || !truthy req.title) = false := by rw [hg, ht]; rfl
  simp [publish, h1, htext, hf, hu]

theorem storePhase_eq_of_ok (ttl : Nat) (env : PubEnv) (gid title textVal : String)
    (fm : Option FileMeta) (clock : List Nat) (evs : List Ev) (st : St)
    (hm : env.metaOk = true) (hgk : env.guestOk = true) :
    storePhase ttl env gid title textVal fm clock evs st =
      (PubResult.ok env.docId (mkPayload ttl gid title textVal fm clock),
       evs ++ [Ev.metaCreate env.docId (mkPayload ttl gid title textVal fm clock),
               Ev.guestMerge gid (clock.tail.tail.headD 0)],
       { posts := st.posts ++ [(env.docId, mkPayload ttl gid title textVal fm clock)],
         guests := upsertLastPost gid (clock.tail.tail.headD 0) st.guests }) := by
  simp [storePhase, hm, hgk]

theorem storePhase_ok_inv (ttl : Nat) (env : PubEnv) (gid title textVal : String)
    (fm : Option FileMeta) (clock : List Nat) (evs : List Ev) (st : St)
    (id : String) (p : Payload)
    (h : (storePhase ttl env gid title textVal fm clock evs st).1 = PubResult.ok id p) :
    env.metaOk = true ∧ env.guestOk = true ∧ id = env.docId ∧
      p = mkPayload ttl gid title textVal fm clock := by
  by_cases hm : env.metaOk <;> by_cases hgk : env.guestOk <;>
    simp [storePhase, hm, hgk] at h
  exact ⟨hm, hgk, h.1.symm, h.2.symm⟩

/-- Inversion of a successful publish: the store flags were set, the id is
the auto id, and the payload is the one built from the request, with the file
branch determining the attachment and the clock offset. -/
theorem publish_ok_inv (ttl : Nat) (env : PubEnv) (req : UploadReq) (st : St)
    (id : String) (p : Payload)
    (h : (publish ttl env req st).1 = PubResult.ok id p) :
    env.metaOk = true ∧ env.guestOk = true ∧ id = env.docId ∧
      ((req.file = none ∧
          p = mkPayload ttl (req.guestId.getD "") (req.title.getD "") (req.text.getD "")
                none env.clock) ∨
        (∃ f resp, req.file = some f ∧ env.uploadResult = some resp ∧
          p = mkPayload ttl (req.guestId.getD "") (req.title.getD "") (req.text.getD "")
                (some (mkFileMeta resp)) env.clock.tail)) := by
  unfold publish at h
  split at h
  · exact absurd h (by simp)
  · split at h
    · exact absurd h (by simp)
    · split at h
      · obtain ⟨hm, hgk, hid, hp⟩ := storePhase_ok_inv _ _ _ _ _ _ _ _ _ _ _ h
        exact ⟨hm, hgk, hid, Or.inl ⟨by assumption, hp⟩⟩
      · split at h
        · exact absurd h (by simp)
        · obtain ⟨hm, hgk, hid, hp⟩ := storePhase_ok_inv _ _ _ _ _ _ _ _ _ _ _ h
          exact ⟨hm, hgk, hid, Or.inr ⟨_, _, by assumption, by assumption, hp⟩⟩

/-! Lemmas about the sweep. -/

theorem metaDelete_not_mem_fileDeleteEvs (id : String) (p : Payload) :
    DEv.metaDelete id ∉ fileDeleteEvs p := by
  rcases hq : p.file with _ | fm
  · simp [fileDeleteEvs, hq]
  · by_cases hid : fm.id = "" <;> simp [fileDeleteEvs, hq, hid]

theorem driveDelete_mem_fileDeleteEvs (fid : String) (p : Payload) :
    DEv.driveDelete fid ∈ fileDeleteEvs p ↔
      ∃ fm, p.file = some fm ∧ fm.id = fid ∧ fid ≠ "" := by
  rcases hq : p.file with _ | fm
  · rw [show fileDeleteEvs p = [] from by simp [fileDeleteEvs, hq]]
    simp [hq]
  · by_cases hid : fm.id = ""
    · rw [show fileDeleteEvs p = [] from by simp [fileDeleteEvs, hq, hid]]
      simp only [List.not_mem_nil, false_iff]
      rintro ⟨fm2, hfm2, hid2, hne⟩
      injection hfm2 with he
      rw [← he] at hid2
      rw [← hid2] at hne
      exact hne hid
    · rw [show fileDeleteEvs p = [DEv.driveDelete fm.id] from by simp [fileDeleteEvs, hq, hid]]
      simp only [List.mem_singleton]
      constructor
      · intro h
        rw [DEv.driveDelete.injEq] at h
        refine ⟨fm, rfl, h.symm, ?_⟩
        rw [h]
        exact hid
      · rintro ⟨fm2, hfm2, hid2, _⟩
        injection hfm2 with he
        rw [← he] at hid2
        rw [DEv.driveDelete.injEq]
        exact hid2.symm

/-- A metadata delete for an id is issued by one sweep run exactly when some
post with that id is in the snapshot and expired. -/
theorem metaDelete_mem_sweepEvents (now : Nat) (id : String) :
    ∀ ps : List (String × Payload),
      (DEv.metaDelete id ∈ sweepEvents now ps ↔ ∃ p, (id, p) ∈ ps ∧ p.expiresAt ≤ now)
  | [] => by simp [sweepEvents]
  | (k, q) :: rest => by
      have ih := metaDelete_mem_sweepEvents now id rest
      by_cases hexp : q.expiresAt ≤ now
      · simp only [sweepEvents, if_pos hexp, List.mem_append, List.mem_cons]
        constructor
        · rintro (habs | h1 | h2)
          · exact absurd habs (metaDelete_not_mem_fileDeleteEvs id q)
          · rw [DEv.metaDelete.injEq] at h1
            exact ⟨q, Or.inl (by rw [h1]), hexp⟩
          · obtain ⟨p, hp, hpe⟩ := ih.mp h2
            exact ⟨p, Or.inr hp, hpe⟩
        · rintro ⟨p, hp | hp, hpe⟩
          · rw [Prod.mk.injEq] at hp
            exact Or.inr (Or.inl (by rw [hp.1]))
          · exact Or.inr (Or.inr (ih.mpr ⟨p, hp, hpe⟩))
      · simp only [sweepEvents, if_neg hexp]
        rw [ih]
        constructor
        · rintro ⟨p, hp, hpe⟩
          exact ⟨p, List.mem_cons_of_mem _ hp, hpe⟩
        · rintro ⟨p, hp, hpe⟩
          rcases List.mem_cons.mp hp with h1 | h1
          · rw [Prod.mk.injEq] at h1
            rw [h1.2] at hpe
            exact absurd hpe hexp
          · exact ⟨p, h1, hpe⟩

/-- Provided every stored attachment has a nonempty blob id, a blob delete
for a blob id is issued by one sweep run exactly when some expired post of
the snapshot carries an attachment with that id. -/
theorem driveDelete_mem_sweepEvents (now : Nat) (fid : String) :
    ∀ ps : List (String × Payload),
      (∀ id p fm, (id, p) ∈ ps → p.file = some fm → fm.id ≠ "") →
      (DEv.driveDelete fid ∈ sweepEvents now ps ↔
        ∃ id p fm, (id, p) ∈ ps ∧ p.expiresAt ≤ now ∧ p.file = some fm ∧ fm.id = fid)
  | [] => by simp [sweepEvents]
  | (k, q) :: rest => by
      intro hwf
      have hwfr : ∀ id p fm, (id, p) ∈ rest → p.file = some fm → fm.id ≠ "" :=
        fun id p fm hm hf => hwf id p fm (List.mem_cons_of_mem _ hm) hf
      have ih := driveDelete_mem_sweepEvents now fid rest hwfr
      by_cases hexp : q.expiresAt ≤ now
      · simp only [sweepEvents, if_pos hexp, List.mem_append, List.mem_cons]
        constructor
        · rintro (hfile | h1 | h2)
          · obtain ⟨fm, hfm, hid, _⟩ := (driveDelete_mem_fileDeleteEvs fid q).mp hfile
            exact ⟨k, q, fm, Or.inl rfl, hexp, hfm, hid⟩
          · exact absurd h1.symm (by simp)
          · obtain ⟨id, p, fm, hp, hpe, hfm, hid⟩ := ih.mp h2
            exact ⟨id, p, fm, Or.inr hp, hpe, hfm, hid⟩
        · rintro ⟨id, p, fm, hp | hp, hpe, hfm, hid⟩
          · have hmem : (id, p) ∈ (k, q) :: rest := List.mem_cons.mpr (Or.inl hp)
            have hne : fm.id ≠ "" := hwf id p fm hmem hfm
            rw [Prod.mk.injEq] at hp
            refine Or.inl ((driveDelete_mem_fileDeleteEvs fid q).mpr ⟨fm, ?_, hid, ?_⟩)
            · rw [← hp.2]; exact hfm
            · rw [← hid]
              exact hne
          · exact Or.inr (Or.inr (ih.mpr ⟨id, p, fm, hp, hpe, hfm, hid⟩))
      · simp only [sweepEvents, if_neg hexp]
        rw [ih]
        constructor
        · rintro ⟨id, p, fm, hp, hpe, hfm, hid⟩
          exact ⟨id, p, fm, List.mem_cons_of_mem _ hp, hpe, hfm, hid⟩
        · rintro ⟨id, p, fm, hp, hpe, hfm, hid⟩
          rcases List.mem_cons.mp hp with h1 | h1
          · rw [Prod.mk.injEq] at h1
            rw [h1.2] at hpe
            exact absurd hpe hexp
          · exact ⟨id, p, fm, h1, hpe, hfm, hid⟩

/-- A post whose metadata delete fails stays in the posts collection after
the sweep. -/
theorem mem_sweepRemain_of_failed (now : Nat) (delOk : String → Bool) :
    ∀ (ps : List (String × Payload)) (id : String) (p : Payload),
      (id, p) ∈ ps → delOk id = false → (id, p) ∈ sweepRemain now delOk ps
  | [], _, _, hm, _ => absurd hm (List.not_mem_nil _)
  | (k, q) :: rest, id, p, hm, hfail => by
      rcases List.mem_cons.mp hm with h1 | h1
      · rw [Prod.mk.injEq] at h1
        obtain ⟨h1a, h1b⟩ := h1
        subst h1a
        subst h1b
        have hcond : ¬ (p.expiresAt ≤ now ∧ delOk id = true) := by
          rintro ⟨_, habs⟩
          rw [hfail] at habs
          exact Bool.false_ne_true habs
        simp only [sweepRemain, if_neg hcond]
        exact List.mem_cons_self _ _
      · have ihm := mem_sweepRemain_of_failed now delOk rest id p h1 hfail
        by_cases hcond : q.expiresAt ≤ now ∧ delOk k = true
        · simpa only [sweepRemain, if_pos hcond] using ihm
        · simp only [sweepRemain, if_neg hcond]
          exact List.mem_cons_of_mem _ ihm

/-! Lemma about the guest merge write. -/

theorem alookup_upsertLastPost (k gid : String) (t : Nat) :
    ∀ gs : List (String × GuestDoc),
      alookup k (upsertLastPost gid t gs) =
        if k = gid then some (setLastPost t ((alookup gid gs).getD emptyGuest))
        else alookup k gs
  | [] => by
      by_cases h : k = gid
      · subst h
        simp [upsertLastPost, alookup]
      · have h2 : ¬ gid = k := fun hh => h hh.symm
        simp [upsertLastPost, alookup, h, h2]
  | (k2, g) :: rest => by
      have ih := alookup_upsertLastPost k gid t rest
      by_cases h2 : k2 = gid
      · subst h2
        simp only [upsertLastPost, if_pos rfl]
        by_cases hk : k2 = k
        · subst hk
          simp [alookup]
        · have hk2 : ¬ k = k2 := fun hh => hk hh.symm
          simp [alookup, hk, hk2]
      · simp only [upsertLastPost, if_neg h2]
        by_cases hk : k2 = k
        · subst hk
          have hne : ¬ k2 = gid := h2
          simp [alookup, hne]
        · simp only [alookup, if_neg hk]
          rw [ih]
          by_cases hkg : k = gid
          · subst hkg
            have hne : ¬ k2 = k := hk
            simp [alookup, hne]
          · simp [hkg]

/-! Trace-ordering helpers. -/

theorem uploadBeforeMeta_nil : uploadBeforeMeta [] := by
  intro i
  exact absurd i.2 (by simp)

theorem uploadBeforeMeta_cons_upload (a b : String) (rest : List Ev) :
    uploadBeforeMeta (Ev.driveUpload a b :: rest) := by
  intro i hi
  refine ⟨⟨0, Nat.succ_pos _⟩, ?_, rfl⟩
  rcases i with ⟨iv, hlt⟩
  cases iv with
  | zero => simp [Ev.isMeta] at hi
  | succ n => exact Nat.succ_pos n

/-! Remaining storePhase branch equations. -/

theorem storePhase_eq_of_guestFail (ttl : Nat) (env : PubEnv) (gid title textVal : String)
    (fm : Option FileMeta) (clock : List Nat) (evs : List Ev) (st : St)
    (hm : env.metaOk = true) (hgk : env.guestOk = false) :
    storePhase ttl env gid title textVal fm clock evs st =
      (PubResult.serverError "upload_failed",
       evs ++ [Ev.metaCreate env.docId (mkPayload ttl gid title textVal fm clock),
               Ev.guestMerge gid (clock.tail.tail.headD 0)],
       { posts := st.posts ++ [(env.docId, mkPayload ttl gid title textVal fm clock)],
         guests := st.guests }) := by
  simp [storePhase, hm, hgk]

theorem storePhase_eq_of_metaFail (ttl : Nat) (env : PubEnv) (gid title textVal : String)
    (fm : Option FileMeta) (clock : List Nat) (evs : List Ev) (st : St)
    (hm : env.metaOk = false) :
    storePhase ttl env gid title textVal fm clock evs st =
      (PubResult.serverError "upload_failed",
       evs ++ [Ev.metaCreate env.docId (mkPayload ttl gid title textVal fm clock)], st) := by
  simp [storePhase, hm]

theorem storePhase_guests_cases (ttl : Nat) (env : PubEnv) (gid title textVal : String)
    (fm : Option FileMeta) (clock : List Nat) (evs : List Ev) (st : St) :
    (storePhase ttl env gid title textVal fm clock evs st).2.2.guests = st.guests ∨
    ∃ t, (storePhase ttl env gid title textVal fm clock evs st).2.2.guests =
      upsertLastPost gid t st.guests := by
  by_cases hm : env.metaOk
  · by_cases hgk : env.guestOk
    · rw [storePhase_eq_of_ok ttl env gid title textVal fm clock evs st hm hgk]
      exact Or.inr ⟨_, rfl⟩
    · rw [storePhase_eq_of_guestFail ttl env gid title textVal fm clock evs st hm
        (by simpa using hgk)]
      exact Or.inl rfl
  · rw [storePhase_eq_of_metaFail ttl env gid title textVal fm clock evs st (by simpa using hm)]
    exact Or.inl rfl

/-- The guests collection after a publish: unchanged, or merge-updated at the
posting guest id. -/
theorem publish_guests_cases (ttl : Nat) (env : PubEnv) (req : UploadReq) (st : St) :
    (publish ttl env req st).2.2.guests = st.guests ∨
    ∃ t, (publish ttl env req st).2.2.guests =
      upsertLastPost (req.guestId.getD "") t st.guests := by
  unfold publish
  split
  · exact Or.inl rfl
  · split
    · exact Or.inl rfl
    · split
      · exact storePhase_guests_cases ttl env _ _ _ none env.clock [] st
      · split
        · exact Or.inl rfl
        · exact storePhase_guests_cases ttl env _ _ _ _ env.clock.tail _ st

/-! Routing helper. -/

theorem find?_middle_neg {α : Type} (q : α → Bool) (l₁ l₂ : List α) (e : α)
    (he : q e = false) :
    List.find? q (l₁ ++ e :: l₂) = List.find? q (l₁ ++ l₂) := by
  induction l₁ with
  | nil =>
      show List.find? q (e :: l₂) = List.find? q l₂
      simp [List.find?, he]
  | cons a t ih =>
      by_cases h : q a
      · simp only [List.cons_append, List.find?_cons_of_pos _ h]
      · simp only [List.cons_append, List.find?_cons_of_neg _ h]
        exact ih

/-! Claim theorems. -/

/-- C1: for every publish request with an attachment (and otherwise valid
fields), the blob upload strictly precedes the metadata write in the call
trace; if the upload fails, the handler answers the attachment error
upload_failed, makes no metadata-create call, and leaves the posts collection
unchanged; and every post the call stores carries the attachment of a
successful upload. -/
theorem C1_upload_precedes_metadata (ttl : Nat) (env : PubEnv) (req : UploadReq) (st : St)
    (f : UploadedFile)
    (hf : req.file = some f)
    (hg : truthy req.guestId = true) (ht : truthy req.title = true)
    (htext : (truthy req.text && decide (500 < jsSplitLen (req.text.getD ""))) = false) :
    uploadBeforeMeta (publish ttl env req st).2.1 ∧
    (env.uploadResult = none →
      (publish ttl env req st).1 = PubResult.serverError "upload_failed" ∧
      (∀ e ∈ (publish ttl env req st).2.1, e.isMeta = false) ∧
      (publish ttl env req st).2.2.posts = st.posts) ∧
    (∀ id p, (id, p) ∈ (publish ttl env req st).2.2.posts → (id, p) ∉ st.posts →
      ∃ resp, env.uploadResult = some resp ∧ p.file = some (mkFileMeta resp)) := by
  cases hu : env.uploadResult with
  | none =>
      rw [publish_valid_file_fail ttl env req st f hg ht htext hf hu]
      refine ⟨uploadBeforeMeta_cons_upload _ _ _, ?_, ?_⟩
      · intro _
        refine ⟨rfl, ?_, rfl⟩
        intro e he
        rw [List.mem_singleton.mp he]
        rfl
      · intro id p hmem hnot
        exact absurd hmem hnot
  | some resp =>
      rw [publish_valid_file_ok ttl env req st f resp hg ht htext hf hu]
      have hcontra : (some resp : Option DriveResp) ≠ none := by simp
      have hstored : ∀ q : Payload,
          (id : String) → (p : Payload) →
          (id, p) ∈ st.posts ++ [(env.docId, q)] → (id, p) ∉ st.posts → p = q := by
        intro q id p hmem hnot
        rcases List.mem_append.mp hmem with h1 | h1
        · exact absurd h1 hnot
        · exact (Prod.mk.injEq _ _ _ _ ▸ List.mem_singleton.mp h1).2
      by_cases hm : env.metaOk
      · by_cases hgk : env.guestOk
        · rw [storePhase_eq_of_ok _ _ _ _ _ _ _ _ _ hm hgk]
          refine ⟨uploadBeforeMeta_cons_upload _ _ _, fun habs => absurd habs hcontra, ?_⟩
          intro id p hmem hnot
          refine ⟨resp, rfl, ?_⟩
          rw [hstored _ id p hmem hnot]
          rfl
        · rw [storePhase_eq_of_guestFail _ _ _ _ _ _ _ _ _ hm (by simpa using hgk)]
          refine ⟨uploadBeforeMeta_cons_upload _ _ _, fun habs => absurd habs hcontra, ?_⟩
          intro id p hmem hnot
          refine ⟨resp, rfl, ?_⟩
          rw [hstored _ id p hmem hnot]
          rfl
      · rw [storePhase_eq_of_metaFail _ _ _ _ _ _ _ _ _ (by simpa using hm)]
        refine ⟨uploadBeforeMeta_cons_upload _ _ _, fun habs => absurd habs hcontra, ?_⟩
        intro id p hmem hnot
        exact absurd hmem hnot

/-- C1 witness: a concrete valid request with an attachment in an environment
where the Drive upload fails: the handler answers upload_failed and stores no
post. -/
theorem C1_witness :
    (publish 24 envC1 reqC1 stEmpty).1 = PubResult.serverError "upload_failed" ∧
    (publish 24 envC1 reqC1 stEmpty).2.2.posts = stEmpty.posts := by
  have h := (C1_upload_precedes_metadata 24 envC1 reqC1 stEmpty fC1 rfl rfl rfl
    (by decide)).2.1 rfl
  exact ⟨h.1, h.2.2⟩

/-- C2 counterexample: in a run whose clock advances by one millisecond
between the createdAt and the expiresAt readings of the payload literal, a
valid attachment-free publish succeeds but the stored and returned Post has
expiresAt - createdAt = ttl plus one millisecond, not exactly ttl. -/
theorem C2_counterexample :
    (publish 24 envC2 reqC2 stEmpty).1 = PubResult.ok "p2" payloadC2 ∧
    (publish 24 envC2 reqC2 stEmpty).2.2.posts = [("p2", payloadC2)] ∧
    payloadC2.expiresAt - payloadC2.createdAt ≠ 24 * 3600 * 1000 := by
  refine ⟨by decide, by decide, by decide⟩

/-- C2 amended: createdAt and expiresAt come from two successive now()
readings t1 and t2; for every valid attachment-free publish that returns a
Post, expiresAt - createdAt equals ttl times 3600000 plus the clock advance
t2 - t1 between the two readings; in particular it equals the ttl exactly
when the clock does not advance between them. -/
theorem C2_ttl_amended (ttl : Nat) (env : PubEnv) (req : UploadReq) (st : St)
    (t1 t2 : Nat) (rest : List Nat) (id : String) (p : Payload)
    (hc : env.clock = t1 :: t2 :: rest) (hmono : t1 ≤ t2) (hf : req.file = none)
    (hok : (publish ttl env req st).1 = PubResult.ok id p) :
    p.expiresAt - p.createdAt = ttl * 3600 * 1000 + (t2 - t1) := by
  obtain ⟨hm, hgk, hid, hcase⟩ := publish_ok_inv ttl env req st id p hok
  rcases hcase with ⟨_, hp⟩ | ⟨f, resp, hfs, _, _⟩
  · rw [hp]
    show (env.clock.tail.headD 0 + ttl * 3600 * 1000) - env.clock.headD 0 =
      ttl * 3600 * 1000 + (t2 - t1)
    rw [hc]
    show (t2 + ttl * 3600 * 1000) - t1 = ttl * 3600 * 1000 + (t2 - t1)
    omega
  · rw [hf] at hfs
    exact absurd hfs (by simp)

/-- C2 amended witness: the theorem applied to the concrete one-millisecond
clock advance. -/
theorem C2_amended_witness :
    payloadC2.expiresAt - payloadC2.createdAt = 24 * 3600 * 1000 + (1001 - 1000) :=
  C2_ttl_amended 24 envC2 reqC2 stEmpty 1000 1001 [1002] "p2" payloadC2 rfl (by decide)
    rfl (by decide)

/-- C3 counterexample: a publish call mutates the stored guest document of
the posting guest: its lastPostAt field changes from absent to the fourth
now() reading. -/
theorem C3_counterexample :
    alookup "g1" (publish 24 envC3 reqC2 stC3).2.2.guests = some (setLastPost 9 g0) ∧
    alookup "g1" stC3.guests = some g0 ∧
    setLastPost 9 g0 ≠ g0 := by
  refine ⟨by decide, by decide, by decide⟩

/-- C3 amended: listing and sweep never change any guest document; a publish
changes at most the lastPostAt field of the posting guest document (by a
merge write), leaving every other field of every guest document unchanged. -/
theorem C3_guest_frame_amended (ttl : Nat) (env : PubEnv) (req : UploadReq) (st : St) :
    (∀ senv : SweepEnv, (cleanup senv st).2.guests = st.guests) ∧
    (∀ b : Bool, (listPostsHandler b st).2 = st) ∧
    (∀ k g g', alookup k st.guests = some g →
      alookup k (publish ttl env req st).2.2.guests = some g' →
      clearLastPost g' = clearLastPost g) := by
  refine ⟨?_, ?_, ?_⟩
  · intro senv
    by_cases hq : senv.queryOk <;> simp [cleanup, hq]
  · intro b
    by_cases hb : b <;> simp [listPostsHandler, hb]
  · intro k g g' h1 h2
    rcases publish_guests_cases ttl env req st with hcase | ⟨t, hcase⟩
    · rw [hcase, h1] at h2
      injection h2 with he
      rw [← he]
    · rw [hcase, alookup_upsertLastPost] at h2
      by_cases hkg : k = req.guestId.getD ""
      · rw [if_pos hkg, ← hkg, h1] at h2
        injection h2 with he
        rw [← he]
        rfl
      · rw [if_neg hkg, h1] at h2
        injection h2 with he
        rw [← he]

/-- C3 amended witness: at the concrete publish of the counterexample, every
field of the stored guest document other than lastPostAt is unchanged. -/
theorem C3_amended_witness :
    clearLastPost (setLastPost 9 g0) = clearLastPost g0 :=
  (C3_guest_frame_amended 24 envC3 reqC2 stC3).2.2 "g1" g0 (setLastPost 9 g0)
    (by decide) (by decide)

/-- C4 counterexample: when the posts query of the listing handler throws,
the handler answers 500 read_failed; it does not return an empty post
sequence. -/
theorem C4_counterexample :
    (listPostsHandler false stC4).1 = ListResult.err "read_failed" ∧
    (listPostsHandler false stC4).1 ≠ ListResult.ok [] := by
  refine ⟨by decide, by decide⟩

/-- C4 amended: for every store state, a listing call whose store read fails
returns the 500 response read_failed to the caller (the process does not
crash, but no empty sequence is returned). -/
theorem C4_read_failure_amended (st : St) :
    (listPostsHandler false st).1 = ListResult.err "read_failed" := rfl

/-- C5: one sweep run with a successful expiry query selects exactly the
posts with expiresAt less than or equal to now (a metadata delete is issued
exactly for those ids); a blob delete is issued exactly for the attachments
of those posts (given that stored attachments carry nonempty blob ids); the
set of delete calls issued does not depend on whether any delete succeeds
(failures are swallowed and the run completes); and a post whose metadata
delete fails stays in the collection, so a later run selects it again. -/
theorem C5_sweep_behavior (env : SweepEnv) (st : St)
    (hq : env.queryOk = true)
    (hwf : ∀ id p fm, (id, p) ∈ st.posts → p.file = some fm → fm.id ≠ "") :
    (∀ id, DEv.metaDelete id ∈ (cleanup env st).1 ↔
        ∃ p, (id, p) ∈ st.posts ∧ p.expiresAt ≤ env.now) ∧
    (∀ fid, DEv.driveDelete fid ∈ (cleanup env st).1 ↔
        ∃ id p fm, (id, p) ∈ st.posts ∧ p.expiresAt ≤ env.now ∧
          p.file = some fm ∧ fm.id = fid) ∧
    (∀ d m : String → Bool,
        (cleanup { queryOk := env.queryOk, now := env.now,
                   driveDelOk := d, metaDelOk := m } st).1 = (cleanup env st).1) ∧
    (∀ id p, (id, p) ∈ st.posts → p.expiresAt ≤ env.now → env.metaDelOk id = false →
        (id, p) ∈ (cleanup env st).2.posts) := by
  have hcl : cleanup env st =
      (sweepEvents env.now st.posts,
       { posts := sweepRemain env.now env.metaDelOk st.posts, guests := st.guests }) := by
    simp [cleanup, hq]
  refine ⟨?_, ?_, ?_, ?_⟩
  · intro id
    rw [hcl]
    exact metaDelete_mem_sweepEvents env.now id st.posts
  · intro fid
    rw [hcl]
    exact driveDelete_mem_sweepEvents env.now fid st.posts hwf
  · intro d m
    rw [hcl]
    simp [cleanup, hq]
  · intro id p hm hexp hfail
    rw [hcl]
    exact mem_sweepRemain_of_failed env.now env.metaDelOk st.posts id p hm hfail

/-- C5 witness: in a concrete store with one expired post carrying an
attachment, under an environment where every delete fails, the sweep still
issues the metadata delete and the post survives into the next run. -/
theorem C5_witness :
    DEv.metaDelete "p1" ∈ (cleanup envW stW).1 ∧
    ("p1", pW) ∈ (cleanup envW stW).2.posts := by
  have hwf : ∀ id p fm, (id, p) ∈ stW.posts → p.file = some fm → fm.id ≠ "" := by
    intro id p fm hm hfm
    have h1 := List.mem_singleton.mp hm
    rw [Prod.mk.injEq] at h1
    rw [h1.2] at hfm
    rw [show pW.file = some fmW from rfl] at hfm
    injection hfm with he
    rw [← he]
    decide
  have h := C5_sweep_behavior envW stW rfl hwf
  refine ⟨(h.1 "p1").mpr ⟨pW, by decide, by decide⟩, ?_⟩
  exact h.2.2.2 "p1" pW (by decide) (by decide) rfl

/-- C6 counterexample: a publish whose text has exactly 500 words in the
ordinary sense (here with one leading space) is rejected with
text_too_long, because the JavaScript split also counts the empty leading
boundary token. -/
theorem C6_counterexample :
    wordCount overlimitText.data = 500 ∧
    publish 24 envC2 reqC6 stEmpty = (PubResult.badRequest "text_too_long", [], stEmpty) := by
  refine ⟨wordCount_overlimitText, ?_⟩
  refine publish_reject_text 24 envC2 reqC6 stEmpty overlimitText rfl rfl rfl ?_ ?_
  · show (' ' :: wordsChars 500) ≠ []
    simp
  · rw [splitLen_overlimitText]
    omega

/-- C6 amended: with valid guestId and title, a text of exactly 500 words
with no leading or trailing whitespace passes validation (the handler never
answers 400), and a text of 501 words is always rejected with text_too_long
before any store or blob call (empty trace, unchanged state); a 500-word
text with boundary whitespace may be rejected, as the counterexample
shows. -/
theorem C6_boundary_amended (ttl : Nat) (env : PubEnv) (req : UploadReq) (st : St) (s : String)
    (hg : truthy req.guestId = true) (ht : truthy req.title = true)
    (hs : req.text = some s) :
    ((bLead s.data = 0 ∧ bTrail s.data = 0 ∧ wordCount s.data = 500) →
      ∀ e, (publish ttl env req st).1 ≠ PubResult.badRequest e) ∧
    (wordCount s.data = 501 →
      publish ttl env req st = (PubResult.badRequest "text_too_long", [], st)) := by
  constructor
  · rintro ⟨hb1, hb2, hw⟩ e
    have hne : s.data ≠ [] := by
      intro habs
      rw [habs] at hw
      simp [wordCount] at hw
    obtain ⟨c, cs, hcs⟩ := List.exists_cons_of_ne_nil hne
    have hsl : jsSplitLen s = 500 := by
      show (jsSplitWs s.data).length = 500
      rw [hcs]
      rw [splitLen_eq_wordCount c cs (by rw [← hcs]; exact hb1) (by rw [← hcs]; exact hb2)]
      rw [← hcs]
      exact hw
    have htext : (truthy req.text && decide (500 < jsSplitLen (req.text.getD ""))) = false := by
      rw [hs]
      show (truthy (some s) && decide (500 < jsSplitLen s)) = false
      rw [hsl]
      simp
    exact publish_not_badRequest ttl env req st hg ht htext e
  · intro hw
    have hne : s.data ≠ [] := by
      intro habs
      rw [habs] at hw
      simp [wordCount] at hw
    have hlen : 500 < jsSplitLen s := by
      have hle := wordCount_le_splitLen s.data
      show 500 < (jsSplitWs s.data).length
      omega
    exact publish_reject_text ttl env req st s hg ht hs hne hlen

/-- C6 amended witness: the concrete 500-word text with no boundary
whitespace passes validation. -/
theorem C6_amended_witness :
    (publish 24 envC2 reqC6ok stEmpty).1 ≠ PubResult.badRequest "text_too_long" :=
  (C6_boundary_amended 24 envC2 reqC6ok stEmpty boundaryText rfl rfl rfl).1
    ⟨bLead_boundaryText, bTrail_boundaryText, wordCount_boundaryText⟩ "text_too_long"

/-- C7: for a valid publish with an attachment whose upload succeeds and
whose store writes succeed, the handler returns success and stores the post
regardless of the outcome of the public-permission grant: the permission
flag of the environment appears in no hypothesis, so a failed grant cannot
abort the publish. -/
theorem C7_perm_failure_not_fatal (ttl : Nat) (env : PubEnv) (req : UploadReq) (st : St)
    (f : UploadedFile) (resp : DriveResp)
    (hg : truthy req.guestId = true) (ht : truthy req.title = true)
    (htext : (truthy req.text && decide (500 < jsSplitLen (req.text.getD ""))) = false)
    (hf : req.file = some f) (hu : env.uploadResult = some resp)
    (hm : env.metaOk = true) (hgk : env.guestOk = true) :
    (publish ttl env req st).1 =
      PubResult.ok env.docId
        (mkPayload ttl (req.guestId.getD "") (req.title.getD "") (req.text.getD "")
          (some (mkFileMeta resp)) env.clock.tail) ∧
    (publish ttl env req st).2.2.posts =
      st.posts ++ [(env.docId,
        mkPayload ttl (req.guestId.getD "") (req.title.getD "") (req.text.getD "")
          (some (mkFileMeta resp)) env.clock.tail)] := by
  rw [publish_valid_file_ok ttl env req st f resp hg ht htext hf hu,
    storePhase_eq_of_ok _ _ _ _ _ _ _ _ _ hm hgk]
  exact ⟨rfl, rfl⟩

/-- C7 witness: a concrete publish in which the permission grant fails
(permOk is false in envC7) still returns success and stores the post. -/
theorem C7_witness :
    (publish 24 envC7 reqC7 stEmpty).1 =
      PubResult.ok "p7" (mkPayload 24 "g1" "T" "" (some (mkFileMeta respC7)) [3, 3, 4]) :=
  (C7_perm_failure_not_fatal 24 envC7 reqC7 stEmpty fC1 respC7 rfl rfl (by decide)
    rfl rfl rfl rfl).1

/-- C8: a successful listing call returns the posts query result: at most
100 posts, ordered by createdAt descending; and every GET /posts request
dispatches to this handler (the first /posts registration). -/
theorem C8_listing_sorted_bounded (st : St) :
    (listPostsHandler true st).1 = ListResult.ok (listRecentPosts st) ∧
    (listRecentPosts st).length ≤ 100 ∧
    List.Sorted postGE (listRecentPosts st) ∧
    dispatch "GET" "/posts" routes = some HKind.posts1 := by
  refine ⟨rfl, ?_, ?_, by decide⟩
  · show ((List.insertionSort postGE st.posts).take 100).length ≤ 100
    rw [List.length_take]
    exact min_le_left _ _
  · have hs : List.Sorted postGE (List.insertionSort postGE st.posts) :=
      List.sorted_insertionSort postGE st.posts
    exact List.Pairwise.sublist (List.take_sublist _ _) hs

/-- C9: removing the second POST /upload registration does not change the
dispatch of any request (its handler is unreachable), and POST /upload is
handled by the first registered upload handler. -/
theorem C9_duplicate_upload_unreachable :
    (∀ m p : String, dispatch m p routes = dispatch m p routesNoDup) ∧
    dispatch "POST" "/upload" routes = some HKind.uploadMain := by
  constructor
  · intro m p
    by_cases hmp : m = "POST" ∧ p = "/upload"
    · obtain ⟨hm, hp⟩ := hmp
      subst hm
      subst hp
      decide
    · have he : (fun r : Route => decide (r.method = m ∧ r.path = p)) dupRoute = false := by
        apply decide_eq_false
        rintro ⟨h1, h2⟩
        exact hmp ⟨h1.symm, h2.symm⟩
      show (List.find? (fun r : Route => decide (r.method = m ∧ r.path = p)) routes).map
          Route.tag =
        (List.find? (fun r : Route => decide (r.method = m ∧ r.path = p)) routesNoDup).map
          Route.tag
      rw [show routes = routesPre ++ dupRoute :: routesPost from rfl,
        show routesNoDup = routesPre ++ routesPost from rfl,
        find?_middle_neg _ routesPre routesPost dupRoute he]
  · decide

/-- C10: every post stored by a successful publish is written as a document
whose text key holds a string value, equal to the empty string when the
request had no text, and whose file key is present with the null value when
the request had no attachment. -/
theorem C10_doc_fields (ttl : Nat) (env : PubEnv) (req : UploadReq) (st : St)
    (id : String) (p : Payload)
    (hok : (publish ttl env req st).1 = PubResult.ok id p) :
    alookup "text" (toDoc p) = some (JsVal.str p.text) ∧
    (req.text = none → p.text = "") ∧
    (req.file = none → alookup "file" (toDoc p) = some JsVal.null) := by
  obtain ⟨hm, hgk, hid, hcase⟩ := publish_ok_inv ttl env req st id p hok
  refine ⟨rfl, ?_, ?_⟩
  · intro hnone
    rcases hcase with ⟨_, hp⟩ | ⟨f, resp, _, _, hp⟩ <;>
      · rw [hp]
        show req.text.getD "" = ""
        rw [hnone]
        rfl
  · intro hfnone
    rcases hcase with ⟨_, hp⟩ | ⟨f, resp, hfs, _, _⟩
    · rw [hp]
      rfl
    · rw [hfnone] at hfs
      exact absurd hfs (by simp)

/-- C10 witness: the concrete publish of reqC2 (no text, no attachment)
stores a document with text the empty string and file present and null. -/
theorem C10_witness :
    alookup "text" (toDoc payloadC2) = some (JsVal.str payloadC2.text) ∧
    payloadC2.text = "" ∧
    alookup "file" (toDoc payloadC2) = some JsVal.null := by
  have h := C10_doc_fields 24 envC2 reqC2 stEmpty "p2" payloadC2 (by decide)
  exact ⟨h.1, h.2.1 rfl, h.2.2 rfl⟩

end DivineNex
